import Mathlib

/-!
Verification of the schema-introspection and DDL-synthesis engine of the
`aws_sql_editor_lambda_deployable` repository (`aws_db.py`, `app.py`).

The database catalog is modelled as an explicit state (`DBState`): the rows
that the catalog queries of the source would return, before any `ORDER BY`.
Each SQL query issued by the source is embedded as a Lean function that
filters, joins and sorts those rows exactly as the SQL text states.  The
Python code that consumes the rows (`table_schema`, `list_table_schemas`,
`api_table_schemas`) is translated line by line; Python dictionaries become
association lists with first-occurrence key semantics, and a raised
exception becomes the `Except` error path.  A query execution itself can
fail (the psycopg2 layer); this is modelled by the set `DBState.failing` of
query sites whose execution raises, surfaced as `Err.catalogQueryError`.
The explicit `ValueError` raised by `table_schema` for a missing table is
the distinct `Err.tableNotFoundError`.
-/

/-- Byte-wise lexicographic comparison of character lists; the model of the
textual ordering used by the SQL `ORDER BY` clauses of the source. -/
def charListLe : List Char → List Char → Bool
  | [], _ => true
  | _ :: _, [] => false
  | a :: as, b :: bs => if a < b then true else if b < a then false else charListLe as bs

/-- String comparison through the underlying character list. -/
def strLeB (a b : String) : Bool := charListLe a.data b.data

/-- Two-key lexicographic comparator: primary key `f` under `le1`, ties broken
by the secondary key `g` under `le2`. -/
def lexLe {α κ μ : Type} [DecidableEq κ] (f : α → κ) (g : α → μ)
    (le1 : κ → κ → Bool) (le2 : μ → μ → Bool) (a b : α) : Bool :=
  if f a = f b then le2 (g a) (g b) else le1 (f a) (f b)

/-- Sorting under a boolean comparator; the model of SQL `ORDER BY`. -/
def sortBy {α : Type} (le : α → α → Bool) (l : List α) : List α :=
  List.insertionSort (fun a b => le a b = true) l

/-- Association-list read with Python-dictionary first-occurrence semantics. -/
def alGet {β : Type} (k : String) : List (String × β) → Option β
  | [] => none
  | (k2, v) :: rest => if k2 = k then some v else alGet k rest

/-- Key-membership test, the model of Python `k in d`. -/
def alHas {β : Type} (k : String) (d : List (String × β)) : Bool :=
  (alGet k d).isSome

/-- In-place modification of the value stored under a key, the model of
Python `d[k] = f(d[k])`. -/
def alMod {β : Type} (k : String) (f : β → β) : List (String × β) → List (String × β)
  | [] => []
  | (k2, v) :: rest => if k2 = k then (k2, f v) :: rest else (k2, v) :: alMod k f rest

/-- Python dictionary insertion `d[k] = v`: replaces the first binding of the
key, otherwise appends. -/
def dictInsert {β : Type} (k : String) (v : β) : List (String × β) → List (String × β)
  | [] => [(k, v)]
  | (k2, v2) :: rest => if k2 = k then (k, v) :: rest else (k2, v2) :: dictInsert k v rest

/-- One row of the column query of `table_schema` (`pg_attribute` joined with
`pg_attrdef`): ordinal, name, formatted type, nullability, default
expression, identity kind (`""`, `"a"` = always, `"d"` = by default). -/
structure ColRow where
  attnum : Nat
  attname : String
  dataType : String
  notNull : Bool
  defaultExpr : Option String
  identityKind : String
deriving DecidableEq

/-- One row of the constraint query of `table_schema` (`pg_constraint`):
name, kind character (`p`/`u`/`f`/`c`/`x`), rendered definition. -/
structure ConstraintRow where
  conname : String
  contype : Char
  condef : String
deriving DecidableEq

/-- One row of `pg_indexes` as read by `api_table_schemas`. -/
structure IndexRow where
  schemaname : String
  tablename : String
  indexname : String
  indexdef : String
deriving DecidableEq

/-- One row of `pg_partitioned_table` joined to `pg_class`/`pg_namespace`:
schema, table, strategy character, attribute numbers of the partition key in
declared key order (`partattrs`). -/
structure PartParentRow where
  nspname : String
  relname : String
  partstrat : Char
  partattrs : List Nat
deriving DecidableEq

/-- One row of `pg_inherits` joined to `pg_class`/`pg_namespace` for parent
and child, with the child's partition-bound text (`relpartbound`). -/
structure InheritRow where
  parentSchema : String
  parentName : String
  childSchema : String
  childName : String
  relpartbound : Option String
deriving DecidableEq

/-- Query sites of the source; used both as an execution trace and to model a
query whose execution raises in the database layer. -/
inductive QTag where
  | probe
  | nativeDump
  | existsCheck
  | colsFetch
  | constraintsFetch
  | listTablesQ
  | indexesFetch
  | partParentsFetch
  | inheritsFetch
deriving DecidableEq

/-- Error taxonomy of the engine: the explicit `ValueError` raised by
`table_schema` for a missing base table, distinct from a query-execution
failure surfaced by the database layer. -/
inductive Err where
  | tableNotFoundError (msg : String)
  | catalogQueryError (msg : String)
deriving DecidableEq

/-- The catalog state visible to the engine: the raw (unsorted) rows behind
each catalog view that the source queries, plus the set of query sites whose
execution raises in the database layer. -/
structure DBState where
  /-- names in `pg_proc`, probed for `pg_get_tabledef` -/
  procNames : List String
  /-- result of `SELECT pg_get_tabledef('<schema>.<table>')`; `none` = NULL -/
  nativeDump : String → Option String
  /-- `(table_schema, table_name)` rows of `information_schema.tables` with
  `table_type = 'BASE TABLE'` -/
  baseTables : List (String × String)
  /-- `pg_attribute`/`pg_attrdef` rows keyed by schema and table -/
  cols : String → String → List ColRow
  /-- `pg_constraint` rows keyed by schema and table -/
  cons : String → String → List ConstraintRow
  /-- rows of `pg_indexes` -/
  pgIndexes : List IndexRow
  /-- rows of `pg_partitioned_table` with their schema -/
  partParents : List PartParentRow
  /-- rows of `pg_inherits` with both schemas resolved -/
  inherits : List InheritRow
  /-- query sites whose execution raises a database error -/
  failing : List QTag

/-- Python truthiness of an optional string (`None` and `""` are falsy), as
used by `if row and row[0]` and `elif default_expr`. -/
def truthyStr : Option String → Bool
  | none => false
  | some s => !(s == "")

/-- psycopg2 `sql.Identifier(...).as_string(conn)`: double-quote the name,
doubling any embedded double quote. -/
def quoteIdent (s : String) : String :=
  String.mk ('"' :: s.data.foldr (fun c acc => if c = '"' then '"' :: '"' :: acc else c :: acc) ['"'])

/-- Python `text.rstrip(";")`: remove every trailing semicolon. -/
def rstripSemis (s : String) : String :=
  String.mk (s.data.reverse.dropWhile (fun c => c = ';')).reverse

/-- `_redshift_pg_get_tabledef_available`: the probe counts `pg_proc` rows
named `pg_get_tabledef` and reports whether the count is positive
(`aws_db.py` lines 122-135). -/
def pg_get_tabledef_available (s : DBState) : Bool :=
  0 < s.procNames.countP (fun p => p == "pg_get_tabledef")

/-- Existence check of `table_schema`: one row of `information_schema.tables`
with the given schema, name and `table_type = 'BASE TABLE'`
(`aws_db.py` lines 149-157). -/
def tableIsBase (s : DBState) (schema table_name : String) : Bool :=
  s.baseTables.any (fun p => p.1 == schema && p.2 == table_name)

/-- Comparator for `ORDER BY a.attnum`. -/
def colLeB (a b : ColRow) : Bool := decide (a.attnum ≤ b.attnum)

/-- Comparator for `ORDER BY contype DESC, conname`: kind character
descending, then name ascending. -/
def conLeB : ConstraintRow → ConstraintRow → Bool :=
  lexLe (fun r => r.contype) (fun r => r.conname) (fun x y => decide (y ≤ x)) strLeB

/-- Column query of `table_schema` (`aws_db.py` lines 162-184): the stored
rows for the table, `ORDER BY a.attnum`. -/
def colsQuery (s : DBState) (schema table_name : String) : List ColRow :=
  sortBy colLeB (s.cols schema table_name)

/-- Constraint query of `table_schema` (`aws_db.py` lines 201-218): the
stored rows for the table, `ORDER BY contype DESC, conname`. -/
def consQuery (s : DBState) (schema table_name : String) : List ConstraintRow :=
  sortBy conLeB (s.cons schema table_name)

/-- Fragment list for one column row (`aws_db.py` lines 186-198): name and
type, then the identity clause (which suppresses any default), else a
`DEFAULT` clause when a truthy default expression exists, then `NOT NULL`. -/
def colParts (r : ColRow) : List String :=
  let parts := [quoteIdent r.attname, r.dataType]
  let parts :=
    if r.identityKind = "a" ∨ r.identityKind = "d" then
      parts ++ [if r.identityKind = "a" then "GENERATED ALWAYS AS IDENTITY"
                else "GENERATED BY DEFAULT AS IDENTITY"]
    else if truthyStr r.defaultExpr then
      parts ++ ["DEFAULT " ++ r.defaultExpr.getD ""]
    else parts
  if r.notNull then parts ++ ["NOT NULL"] else parts

/-- Rendered column fragment: `" ".join(parts)`. -/
def colLine (r : ColRow) : String :=
  String.intercalate " " (colParts r)

/-- Rendered constraint fragment (`aws_db.py` lines 220-224). -/
def constraintLine (r : ConstraintRow) : String :=
  "CONSTRAINT " ++ quoteIdent r.conname ++ " " ++ r.condef

/-- Assembled `CREATE TABLE` statement (`aws_db.py` lines 226-231). -/
def createStmt (schema table_name : String) (col_lines : List String) : String :=
  "CREATE TABLE " ++ quoteIdent schema ++ "." ++ quoteIdent table_name ++ " (\n  "
    ++ String.intercalate ",\n  " col_lines ++ "\n);"

/-- Reconstruction path of `table_schema` (`aws_db.py` lines 148-232),
paired with the trace of query sites it executes: existence check, column
fetch, constraint fetch, then assembly. -/
def table_schema_recon (s : DBState) (table_name schema : String) :
    Except Err String × List QTag :=
  if s.failing.contains QTag.existsCheck then
    (.error (.catalogQueryError "existence query failed"), [QTag.existsCheck])
  else if !(tableIsBase s schema table_name) then
    (.error (.tableNotFoundError ("Table " ++ schema ++ "." ++ table_name ++ " does not exist.")),
     [QTag.existsCheck])
  else if s.failing.contains QTag.colsFetch then
    (.error (.catalogQueryError "column query failed"), [QTag.existsCheck, QTag.colsFetch])
  else if s.failing.contains QTag.constraintsFetch then
    (.error (.catalogQueryError "constraint query failed"),
     [QTag.existsCheck, QTag.colsFetch, QTag.constraintsFetch])
  else
    let col_lines := (colsQuery s schema table_name).map colLine
      ++ (consQuery s schema table_name).map constraintLine
    (.ok (createStmt schema table_name col_lines),
     [QTag.existsCheck, QTag.colsFetch, QTag.constraintsFetch])

/-- `table_schema` (`aws_db.py` lines 137-232) with its execution trace:
probe for the native dump function; when available and the native text is
truthy, return it normalized by the trailing-semicolon rule; otherwise fall
through to the reconstruction path. -/
def table_schemaT (s : DBState) (table_name schema : String) :
    Except Err String × List QTag :=
  if s.failing.contains QTag.probe then
    (.error (.catalogQueryError "probe query failed"), [QTag.probe])
  else if pg_get_tabledef_available s then
    if s.failing.contains QTag.nativeDump then
      (.error (.catalogQueryError "pg_get_tabledef query failed"), [QTag.probe, QTag.nativeDump])
    else if truthyStr (s.nativeDump (schema ++ "." ++ table_name)) then
      (.ok (rstripSemis ((s.nativeDump (schema ++ "." ++ table_name)).getD "") ++ ";"),
       [QTag.probe, QTag.nativeDump])
    else
      let r := table_schema_recon s table_name schema
      (r.1, [QTag.probe, QTag.nativeDump] ++ r.2)
  else
    let r := table_schema_recon s table_name schema
    (r.1, [QTag.probe] ++ r.2)

/-- `table_schema` as observed by callers: the result without the trace. -/
def table_schema (s : DBState) (table_name schema : String) : Except Err String :=
  (table_schemaT s table_name schema).1

/-- `list_tables` (`aws_db.py` lines 108-119): base-table names of the
schema, `ORDER BY table_name`. -/
def list_tables (s : DBState) (schema : String) : List String :=
  sortBy strLeB ((s.baseTables.filter (fun p => p.1 == schema)).map (fun p => p.2))

/-- Dictionary-comprehension body of `list_table_schemas`: synthesize each
table in turn, aborting on the first raised error. -/
def schemasFold (s : DBState) (schema : String) :
    List String → List (String × String) → Except Err (List (String × String))
  | [], acc => .ok acc
  | t :: ts, acc =>
    match table_schema s t schema with
    | .error e => .error e
    | .ok d => schemasFold s schema ts (dictInsert t d acc)

/-- `list_table_schemas` (`aws_db.py` lines 234-239):
`{t: table_schema(t, schema) for t in list_tables(schema)}`. -/
def list_table_schemas (s : DBState) (schema : String) :
    Except Err (List (String × String)) :=
  if s.failing.contains QTag.listTablesQ then
    .error (.catalogQueryError "table list query failed")
  else schemasFold s schema (list_tables s schema) []

/-- The per-table partition dictionary of `api_table_schemas`: initialized to
`{}` for every table; the three catalog passes set subsets of its keys.  An
absent key of the Python dict is a `none` field. -/
structure PartInfo where
  is_partitioned : Option Bool := none
  strategy : Option (Option String) := none
  key_columns : Option (List String) := none
  children : Option (List (String × String)) := none
  is_partition : Option Bool := none
  parent : Option String := none
  bounds : Option String := none
deriving DecidableEq

/-- The empty per-table partition dictionary `{}` (`app.py` line 93). -/
def emptyPartInfo : PartInfo := {}

/-- The consolidated result of `api_table_schemas`. -/
structure Snapshot where
  schema : String
  tables : List String
  ddl : List (String × String)
  indexes : List (String × List (String × String))
  partitions : List (String × PartInfo)
deriving DecidableEq

/-- Comparator for `ORDER BY tablename, indexname`. -/
def idxLeB : IndexRow → IndexRow → Bool :=
  lexLe (fun r => r.tablename) (fun r => r.indexname) strLeB strLeB

/-- Comparator for `ORDER BY parent.relname, child.relname`. -/
def ihLeB : InheritRow → InheritRow → Bool :=
  lexLe (fun r => r.parentName) (fun r => r.childName) strLeB strLeB

/-- Index query of `api_table_schemas` (`app.py` lines 97-105): rows of
`pg_indexes` for the schema, `ORDER BY tablename, indexname`. -/
def indexesQuery (s : DBState) (schema : String) : List IndexRow :=
  sortBy idxLeB (s.pgIndexes.filter (fun r => r.schemaname == schema))

/-- The `CASE pt.partstrat` expression (`app.py` lines 116-120); no `ELSE`
branch, so an unknown character yields SQL NULL. -/
def strategyName (c : Char) : Option String :=
  if c = 'l' then some "LIST"
  else if c = 'r' then some "RANGE"
  else if c = 'h' then some "HASH"
  else none

/-- Partitioned-parent query of `api_table_schemas` (`app.py` lines 111-139):
for each `pg_partitioned_table` row of the schema, join `partattrs` elements
to `pg_attribute` and aggregate the names with `ORDER BY a.attnum` — the
table-ordinal position, since the `WITH ORDINALITY` column is unused by the
aggregate.  An empty inner join yields no output row for that table.
Result rows `(tablename, strategy, key_columns)`, `ORDER BY tablename`. -/
def partParentsQuery (s : DBState) (schema : String) :
    List (String × Option String × List String) :=
  let part := s.partParents.filter (fun p => p.nspname == schema)
  let rows := part.filterMap (fun p =>
    let joined := (p.partattrs.map
      (fun k => (s.cols schema p.relname).filter (fun a => a.attnum == k))).flatten
    if joined = [] then none
    else some (p.relname, strategyName p.partstrat,
               (sortBy colLeB joined).map (fun a => a.attname)))
  sortBy (fun a b => strLeB a.1 b.1) rows

/-- Inheritance query of `api_table_schemas` (`app.py` lines 151-164): rows
of `pg_inherits` whose parent and child are both in the schema,
`ORDER BY parent.relname, child.relname`. -/
def inheritsQuery (s : DBState) (schema : String) : List InheritRow :=
  sortBy ihLeB (s.inherits.filter
    (fun r => r.parentSchema == schema && r.childSchema == schema))

/-- Index-loop body (`app.py` lines 106-108): append `{name, def}` to the
table's list when the table is a key of the dictionary. -/
def applyIndexRow (r : IndexRow) (d : List (String × List (String × String))) :
    List (String × List (String × String)) :=
  if alHas r.tablename d then
    alMod r.tablename (fun l => l ++ [(r.indexname, r.indexdef)]) d
  else d

/-- Parent-row update of the partitioned-parents loop (`app.py` lines
143-148). -/
def parentRowUpd (strategy : Option String) (key_columns : List String)
    (v : PartInfo) : PartInfo :=
  { v with is_partitioned := some true, strategy := some strategy,
           key_columns := some key_columns, children := some [] }

/-- Partitioned-parents loop body (`app.py` lines 141-148). -/
def applyParentRow (r : String × Option String × List String)
    (d : List (String × PartInfo)) : List (String × PartInfo) :=
  if alHas r.1 d then alMod r.1 (parentRowUpd r.2.1 r.2.2) d else d

/-- Parent side of the inheritance loop (`app.py` lines 170-180): when
`is_partitioned` is not truthy, synthesize an inheritance-only parent entry
(`strategy = None`, empty key columns), then append the child with its
bound text. -/
def parentUpd (child bounds : String) (v : PartInfo) : PartInfo :=
  let v :=
    if !(v.is_partitioned.getD false) then
      { v with is_partitioned := some true, strategy := some none,
               key_columns := some [], children := some [] }
    else v
  { v with children := some (v.children.getD [] ++ [(child, bounds)]) }

/-- Child side of the inheritance loop (`app.py` lines 181-186). -/
def childUpd (parent bounds : String) (v : PartInfo) : PartInfo :=
  { v with is_partition := some true, parent := some parent, bounds := some bounds }

/-- Inheritance loop body (`app.py` lines 169-186): update the parent entry,
then the child entry, each only when present as a key. -/
def applyInheritRow (r : InheritRow) (d : List (String × PartInfo)) :
    List (String × PartInfo) :=
  let b := r.relpartbound.getD ""
  let d := if alHas r.parentName d then alMod r.parentName (parentUpd r.childName b) d else d
  if alHas r.childName d then alMod r.childName (childUpd r.parentName b) d else d

/-- Pure assembly of the snapshot once every catalog query has succeeded
(`app.py` lines 88-194): sorted table list, DDL mapping, index mapping
initialized to `[]` per table then populated, and the three-pass partition
mapping initialized to `{}` per table. -/
def buildSnapshot (s : DBState) (schema : String)
    (mapping : List (String × String)) : Snapshot :=
  let ordered_items := sortBy (fun a b => strLeB a.1 b.1) mapping
  let table_names := ordered_items.map (fun p => p.1)
  let indexes0 := table_names.map (fun t => (t, ([] : List (String × String))))
  let indexes := (indexesQuery s schema).foldl (fun d r => applyIndexRow r d) indexes0
  let partitions0 := table_names.map (fun t => (t, emptyPartInfo))
  let partitions1 := (partParentsQuery s schema).foldl (fun d r => applyParentRow r d) partitions0
  let partitions := (inheritsQuery s schema).foldl (fun d r => applyInheritRow r d) partitions1
  { schema := schema, tables := table_names, ddl := ordered_items,
    indexes := indexes, partitions := partitions }

/-- `api_table_schemas` (`app.py` lines 79-196): aggregate DDL mapping,
index mapping and partition mapping for a schema; any failure inside the
`try` block aborts the request with that error (`app.py` lines 195-196). -/
def api_table_schemas (s : DBState) (schema : String) : Except Err Snapshot :=
  match list_table_schemas s schema with
  | .error e => .error e
  | .ok mapping =>
    if s.failing.contains QTag.indexesFetch then
      .error (.catalogQueryError "index query failed")
    else if s.failing.contains QTag.partParentsFetch then
      .error (.catalogQueryError "partitioned-table query failed")
    else if s.failing.contains QTag.inheritsFetch then
      .error (.catalogQueryError "inheritance query failed")
    else .ok (buildSnapshot s schema mapping)

/-- Whether a string begins with the clause keyword `DEFAULT `. -/
def startsWithDEFAULT (x : String) : Bool :=
  "DEFAULT ".data.isPrefixOf x.data

/-- Whether a fragment list contains one of the two fixed identity clauses. -/
def hasIdentityClause (ps : List String) : Bool :=
  ps.any (fun p => p == "GENERATED ALWAYS AS IDENTITY" || p == "GENERATED BY DEFAULT AS IDENTITY")

/-- Whether a fragment list contains a `DEFAULT` clause. -/
def hasDefaultClause (ps : List String) : Bool :=
  ps.any (fun p => startsWithDEFAULT p)

/-- Modelled from the spec: key-column names "ordered by their position
within the partition key, not their table ordinal" — the same
`partattrs`-to-`pg_attribute` join as `partParentsQuery`, but aggregated in
`partattrs` (ordinality) order instead of `ORDER BY a.attnum`. -/
def keyColumnsByPartitionKey (s : DBState) (schema relname : String)
    (partattrs : List Nat) : List String :=
  ((partattrs.map (fun k => (s.cols schema relname).filter (fun a => a.attnum == k))).flatten).map
    (fun a => a.attname)

/-- Effect of one partitioned-parent row on the entry of a fixed key `t`. -/
def parentRowStepOn (t : String) (v : PartInfo)
    (r : String × Option String × List String) : PartInfo :=
  if r.1 = t then parentRowUpd r.2.1 r.2.2 v else v

/-- Effect of one inheritance row on the entry of a fixed key `t`. -/
def inhStepOn (t : String) (v : PartInfo) (r : InheritRow) : PartInfo :=
  let b := r.relpartbound.getD ""
  let v := if r.parentName = t then parentUpd r.childName b v else v
  if r.childName = t then childUpd r.parentName b v else v

/-- Fixture for the constraint-ordering claim: one table with a primary key,
a unique constraint and a check constraint. -/
def stC1 : DBState := {
  procNames := [], nativeDump := fun _ => none,
  baseTables := [("public", "t")],
  cols := fun sch t => if sch = "public" ∧ t = "t" then
      [⟨1, "id", "bigint", true, none, ""⟩] else [],
  cons := fun sch t => if sch = "public" ∧ t = "t" then
      [⟨"t_pkey", 'p', "PRIMARY KEY (id)"⟩,
       ⟨"t_email_key", 'u', "UNIQUE (email)"⟩,
       ⟨"t_age_check", 'c', "CHECK (age >= 0)"⟩] else [],
  pgIndexes := [], partParents := [], inherits := [], failing := [] }

/-- Fixture for the partition-key-order claim: table `m` with columns
`a` (attnum 1) and `b` (attnum 2), partitioned by the declared key
`(b, a)`, i.e. `partattrs = [2, 1]`. -/
def stC2 : DBState := {
  procNames := [], nativeDump := fun _ => none,
  baseTables := [("public", "m")],
  cols := fun sch t => if sch = "public" ∧ t = "m" then
      [⟨1, "a", "integer", false, none, ""⟩, ⟨2, "b", "text", false, none, ""⟩] else [],
  cons := fun _ _ => [],
  pgIndexes := [], partParents := [⟨"public", "m", 'r', [2, 1]⟩],
  inherits := [], failing := [] }

/-- Column row whose catalog data reports both an identity kind and a
default expression. -/
def rC3 : ColRow := ⟨1, "id", "bigint", true, some "now()", "a"⟩

/-- Fixture for the native fast path: the probe finds `pg_get_tabledef` and
the native dump returns text with two trailing semicolons. -/
def stC4 : DBState := {
  procNames := ["pg_get_tabledef"],
  nativeDump := fun q => if q = "public.users" then some "CREATE TABLE users (id int);;" else none,
  baseTables := [("public", "users")],
  cols := fun _ _ => [⟨1, "id", "integer", false, none, ""⟩],
  cons := fun _ _ => [],
  pgIndexes := [], partParents := [], inherits := [], failing := [] }

/-- Fixture with no table at all: `tableDDL("ghost", "public")` must fail. -/
def stC5 : DBState := {
  procNames := [], nativeDump := fun _ => none,
  baseTables := [],
  cols := fun _ _ => [], cons := fun _ _ => [],
  pgIndexes := [], partParents := [], inherits := [], failing := [] }

/-- Fixture for aggregation atomicity: table `a` succeeds through the native
dump, table `b` has no native text and its column query raises. -/
def stC6 : DBState := {
  procNames := ["pg_get_tabledef"],
  nativeDump := fun q => if q = "public.a" then some "CREATE TABLE a ();" else none,
  baseTables := [("public", "a"), ("public", "b")],
  cols := fun _ _ => [], cons := fun _ _ => [],
  pgIndexes := [], partParents := [], inherits := [],
  failing := [QTag.colsFetch] }

/-- Fixture for the index mapping: table `a` has one index, table `b` has
none. -/
def stC7 : DBState := {
  procNames := [], nativeDump := fun _ => none,
  baseTables := [("public", "a"), ("public", "b")],
  cols := fun _ _ => [⟨1, "x", "integer", false, none, ""⟩],
  cons := fun _ _ => [],
  pgIndexes := [⟨"public", "a", "a_x_idx", "CREATE INDEX a_x_idx ON public.a USING btree (x)"⟩],
  partParents := [], inherits := [], failing := [] }

/-- Snapshot produced by `api_table_schemas` on `stC7`. -/
def snapC7 : Snapshot := {
  schema := "public",
  tables := ["a", "b"],
  ddl := [("a", "CREATE TABLE \"public\".\"a\" (\n  \"x\" integer\n);"),
          ("b", "CREATE TABLE \"public\".\"b\" (\n  \"x\" integer\n);")],
  indexes := [("a", [("a_x_idx", "CREATE INDEX a_x_idx ON public.a USING btree (x)")]), ("b", [])],
  partitions := [("a", emptyPartInfo), ("b", emptyPartInfo)] }

/-- Fixture for partition linkage: parent `m` partitioned by list with two
children `m1`, `m2` and their bound predicates. -/
def stC8 : DBState := {
  procNames := [], nativeDump := fun _ => none,
  baseTables := [("public", "m"), ("public", "m1"), ("public", "m2")],
  cols := fun _ _ => [⟨1, "a", "integer", false, none, ""⟩],
  cons := fun _ _ => [],
  pgIndexes := [],
  partParents := [⟨"public", "m", 'l', [1]⟩],
  inherits := [⟨"public", "m", "public", "m1", some "FOR VALUES IN (1)"⟩,
               ⟨"public", "m", "public", "m2", some "FOR VALUES IN (2)"⟩],
  failing := [] }

/-- Fixture with a single ordinary table `t`: not partitioned, not a
partition, no inheritance link. -/
def stC9 : DBState := {
  procNames := [], nativeDump := fun _ => none,
  baseTables := [("public", "t")],
  cols := fun _ _ => [⟨1, "x", "integer", false, none, ""⟩],
  cons := fun _ _ => [],
  pgIndexes := [], partParents := [], inherits := [], failing := [] }

/-- Snapshot produced by `api_table_schemas` on `stC9`. -/
def snapC9 : Snapshot := {
  schema := "public",
  tables := ["t"],
  ddl := [("t", "CREATE TABLE \"public\".\"t\" (\n  \"x\" integer\n);")],
  indexes := [("t", [])],
  partitions := [("t", emptyPartInfo)] }

/-- Fixture for the trailing-semicolon claim on the reconstruction path. -/
def stC10 : DBState := {
  procNames := [], nativeDump := fun _ => none,
  baseTables := [("public", "users")],
  cols := fun sch t => if sch = "public" ∧ t = "users" then
      [⟨1, "id", "bigint", true, some "now()", "d"⟩,
       ⟨2, "name", "character varying(100)", true, none, ""⟩] else [],
  cons := fun sch t => if sch = "public" ∧ t = "users" then
      [⟨"users_pkey", 'p', "PRIMARY KEY (id)"⟩] else [],
  pgIndexes := [], partParents := [], inherits := [], failing := [] }

/-- DDL text produced by `table_schema` on `stC10`. -/
def dC10 : String :=
  "CREATE TABLE \"public\".\"users\" (\n  \"id\" bigint GENERATED BY DEFAULT AS IDENTITY NOT NULL,\n  \"name\" character varying(100) NOT NULL,\n  CONSTRAINT \"users_pkey\" PRIMARY KEY (id)\n);"

/-- Snapshot produced by `api_table_schemas` on `stC8`. -/
def snapC8 : Snapshot := {
  schema := "public",
  tables := ["m", "m1", "m2"],
  ddl := [("m", "CREATE TABLE \"public\".\"m\" (\n  \"a\" integer\n);"),
          ("m1", "CREATE TABLE \"public\".\"m1\" (\n  \"a\" integer\n);"),
          ("m2", "CREATE TABLE \"public\".\"m2\" (\n  \"a\" integer\n);")],
  indexes := [("m", []), ("m1", []), ("m2", [])],
  partitions := [
    ("m", { is_partitioned := some true, strategy := some (some "LIST"),
            key_columns := some ["a"],
            children := some [("m1", "FOR VALUES IN (1)"), ("m2", "FOR VALUES IN (2)")] }),
    ("m1", { is_partition := some true, parent := some "m",
             bounds := some "FOR VALUES IN (1)" }),
    ("m2", { is_partition := some true, parent := some "m",
             bounds := some "FOR VALUES IN (2)" })] }

/-! ### Theorems -/

theorem charListLe_nil_left (b : List Char) : charListLe [] b = true := by
  cases b <;> rfl

theorem charListLe_cons (x y : Char) (xs ys : List Char) :
    charListLe (x :: xs) (y :: ys) = true ↔
      (x < y ∨ (x = y ∧ charListLe xs ys = true)) := by
  simp only [charListLe]
  by_cases h1 : x < y
  · simp [h1]
  · by_cases h2 : y < x
    · have hne : x ≠ y := fun he => absurd (he ▸ h2) (lt_irrefl x)
      simp [h1, h2, hne]
    · have hxy : x = y := le_antisymm (not_lt.mp h2) (not_lt.mp h1)
      simp [h1, h2, hxy]

theorem charListLe_total : ∀ a b : List Char, charListLe a b = true ∨ charListLe b a = true := by
  intro a
  induction a with
  | nil => intro b; left; exact charListLe_nil_left b
  | cons x xs ih =>
    intro b
    cases b with
    | nil => right; exact charListLe_nil_left _
    | cons y ys =>
      rcases lt_trichotomy x y with h | h | h
      · left; exact (charListLe_cons _ _ _ _).mpr (Or.inl h)
      · rcases ih ys with h2 | h2
        · left; exact (charListLe_cons _ _ _ _).mpr (Or.inr ⟨h, h2⟩)
        · right; exact (charListLe_cons _ _ _ _).mpr (Or.inr ⟨h.symm, h2⟩)
      · right; exact (charListLe_cons _ _ _ _).mpr (Or.inl h)

theorem charListLe_trans :
    ∀ a b c : List Char, charListLe a b = true → charListLe b c = true →
      charListLe a c = true := by
  intro a
  induction a with
  | nil => intro b c _ _; exact charListLe_nil_left c
  | cons x xs ih =>
    intro b c hab hbc
    cases b with
    | nil => simp [charListLe] at hab
    | cons y ys =>
      cases c with
      | nil => simp [charListLe] at hbc
      | cons z zs =>
        rcases (charListLe_cons _ _ _ _).mp hab with h1 | ⟨h1, h1r⟩
        · rcases (charListLe_cons _ _ _ _).mp hbc with h2 | ⟨h2, _⟩
          · exact (charListLe_cons _ _ _ _).mpr (Or.inl (lt_trans h1 h2))
          · exact (charListLe_cons _ _ _ _).mpr (Or.inl (h2 ▸ h1))
        · rcases (charListLe_cons _ _ _ _).mp hbc with h2 | ⟨h2, h2r⟩
          · exact (charListLe_cons _ _ _ _).mpr (Or.inl (h1 ▸ h2))
          · exact (charListLe_cons _ _ _ _).mpr (Or.inr ⟨h1.trans h2, ih ys zs h1r h2r⟩)

theorem charListLe_antisymm :
    ∀ a b : List Char, charListLe a b = true → charListLe b a = true → a = b := by
  intro a
  induction a with
  | nil =>
    intro b _ hba
    cases b with
    | nil => rfl
    | cons y ys => simp [charListLe] at hba
  | cons x xs ih =>
    intro b hab hba
    cases b with
    | nil => simp [charListLe] at hab
    | cons y ys =>
      rcases (charListLe_cons _ _ _ _).mp hab with h1 | ⟨h1, h1r⟩
      · rcases (charListLe_cons _ _ _ _).mp hba with h2 | ⟨h2, _⟩
        · exact absurd h2 (lt_asymm h1)
        · exact absurd (h2 ▸ h1) (lt_irrefl y)
      · rcases (charListLe_cons _ _ _ _).mp hba with h2 | ⟨_, h2r⟩
        · exact absurd (h1 ▸ h2) (lt_irrefl y)
        · rw [h1, ih ys h1r h2r]

theorem strLeB_total (a b : String) : strLeB a b = true ∨ strLeB b a = true :=
  charListLe_total a.data b.data

theorem strLeB_trans (a b c : String) :
    strLeB a b = true → strLeB b c = true → strLeB a c = true :=
  charListLe_trans a.data b.data c.data

theorem strLeB_antisymm (a b : String) :
    strLeB a b = true → strLeB b a = true → a = b := by
  intro h1 h2
  exact String.ext (charListLe_antisymm a.data b.data h1 h2)

theorem lexLe_total {α κ μ : Type} [DecidableEq κ] (f : α → κ) (g : α → μ)
    (le1 : κ → κ → Bool) (le2 : μ → μ → Bool)
    (h1 : ∀ x y, le1 x y = true ∨ le1 y x = true)
    (h2 : ∀ x y, le2 x y = true ∨ le2 y x = true) :
    ∀ a b, lexLe f g le1 le2 a b = true ∨ lexLe f g le1 le2 b a = true := by
  intro a b
  unfold lexLe
  by_cases he : f a = f b
  · simp [he]
    exact h2 (g a) (g b)
  · simp [he, Ne.symm he]
    exact h1 (f a) (f b)

theorem lexLe_trans {α κ μ : Type} [DecidableEq κ] (f : α → κ) (g : α → μ)
    (le1 : κ → κ → Bool) (le2 : μ → μ → Bool)
    (h1t : ∀ x y z, le1 x y = true → le1 y z = true → le1 x z = true)
    (h1a : ∀ x y, le1 x y = true → le1 y x = true → x = y)
    (h2t : ∀ x y z, le2 x y = true → le2 y z = true → le2 x z = true) :
    ∀ a b c, lexLe f g le1 le2 a b = true → lexLe f g le1 le2 b c = true →
      lexLe f g le1 le2 a c = true := by
  intro a b c hab hbc
  unfold lexLe at hab hbc ⊢
  by_cases hab1 : f a = f b
  · by_cases hbc1 : f b = f c
    · have hac : f a = f c := hab1.trans hbc1
      simp [hab1, hbc1, hac] at hab hbc ⊢
      exact h2t _ _ _ hab hbc
    · have hac : f a ≠ f c := fun he => hbc1 (hab1.symm.trans he)
      simp [hab1, hbc1, hac] at hab hbc ⊢
      exact hab1 ▸ hbc
  · by_cases hbc1 : f b = f c
    · have hac : f a ≠ f c := fun he => hab1 (he.trans hbc1.symm)
      simp [hab1, hbc1, hac] at hab hbc ⊢
      exact hbc1 ▸ hab
    · by_cases hac : f a = f c
      · exfalso
        simp [hab1, hbc1] at hab hbc
        exact hab1 (h1a _ _ hab (hac ▸ hbc))
      · simp [hab1, hbc1, hac] at hab hbc ⊢
        exact h1t _ _ _ hab hbc

theorem sortBy_sorted {α : Type} (le : α → α → Bool)
    (ht : ∀ a b c, le a b = true → le b c = true → le a c = true)
    (hto : ∀ a b, le a b = true ∨ le b a = true) (l : List α) :
    List.Pairwise (fun a b => le a b = true) (sortBy le l) := by
  haveI : IsTrans α (fun a b => le a b = true) := ⟨fun a b c => ht a b c⟩
  haveI : IsTotal α (fun a b => le a b = true) := ⟨fun a b => hto a b⟩
  exact List.sorted_insertionSort _ l

theorem sortBy_perm {α : Type} (le : α → α → Bool) (l : List α) :
    (sortBy le l).Perm l :=
  List.perm_insertionSort _ l

theorem sortBy_mem {α : Type} (le : α → α → Bool) (l : List α) (a : α) :
    a ∈ sortBy le l ↔ a ∈ l :=
  (sortBy_perm le l).mem_iff

theorem alGet_alMod_self {β : Type} (k : String) (f : β → β) :
    ∀ d : List (String × β), alGet k (alMod k f d) = (alGet k d).map f := by
  intro d
  induction d with
  | nil => rfl
  | cons p rest ih =>
    obtain ⟨k2, v⟩ := p
    by_cases h : k2 = k
    · simp [alMod, alGet, h]
    · simp [alMod, alGet, h, ih]

theorem alGet_alMod_ne {β : Type} (t k : String) (f : β → β) (hne : t ≠ k) :
    ∀ d : List (String × β), alGet t (alMod k f d) = alGet t d := by
  intro d
  induction d with
  | nil => rfl
  | cons p rest ih =>
    obtain ⟨k2, v⟩ := p
    by_cases h : k2 = k
    · have h4 : ¬ k2 = t := fun he => hne (he ▸ h)
      have h5 : ¬ k = t := fun he => hne he.symm
      simp [alMod, alGet, h, h4, h5]
    · by_cases h3 : k2 = t
      · simp [alMod, alGet, h, h3, hne, ih]
      · simp [alMod, alGet, h, h3, ih]

theorem alHas_alMod {β : Type} (t k : String) (f : β → β) (d : List (String × β)) :
    alHas t (alMod k f d) = alHas t d := by
  by_cases h : t = k
  · subst h
    simp only [alHas, alGet_alMod_self]
    cases alGet t d <;> rfl
  · simp [alHas, alGet_alMod_ne t k f h]

theorem alGet_initConst {β : Type} (t : String) (v : β) :
    ∀ ks : List String, t ∈ ks → alGet t (ks.map (fun k => (k, v))) = some v := by
  intro ks
  induction ks with
  | nil => intro h; cases h
  | cons k ks ih =>
    intro h
    by_cases he : k = t
    · simp [alGet, he]
    · rcases List.mem_cons.mp h with h1 | h1
      · exact absurd h1.symm he
      · simp [alGet, he, ih h1]

theorem conLeB_trans : ∀ a b c, conLeB a b = true → conLeB b c = true → conLeB a c = true :=
  lexLe_trans _ _ _ _
    (fun x y z h1 h2 => by
      simp only [decide_eq_true_eq] at h1 h2 ⊢
      exact le_trans h2 h1)
    (fun x y h1 h2 => by
      simp only [decide_eq_true_eq] at h1 h2
      exact le_antisymm h2 h1)
    strLeB_trans

theorem conLeB_total : ∀ a b, conLeB a b = true ∨ conLeB b a = true :=
  lexLe_total _ _ _ _
    (fun x y => by
      rcases le_total y x with h | h
      · exact Or.inl (decide_eq_true h)
      · exact Or.inr (decide_eq_true h))
    strLeB_total

theorem idxLeB_trans : ∀ a b c, idxLeB a b = true → idxLeB b c = true → idxLeB a c = true :=
  lexLe_trans _ _ _ _ strLeB_trans strLeB_antisymm strLeB_trans

theorem idxLeB_total : ∀ a b, idxLeB a b = true ∨ idxLeB b a = true :=
  lexLe_total _ _ _ _ strLeB_total strLeB_total

theorem ihLeB_trans : ∀ a b c, ihLeB a b = true → ihLeB b c = true → ihLeB a c = true :=
  lexLe_trans _ _ _ _ strLeB_trans strLeB_antisymm strLeB_trans

theorem ihLeB_total : ∀ a b, ihLeB a b = true ∨ ihLeB b a = true :=
  lexLe_total _ _ _ _ strLeB_total strLeB_total

theorem foldl_preserve {α β : Type} (P : β → Prop) (f : β → α → β) :
    ∀ l : List α, (∀ a ∈ l, ∀ v, P v → P (f v a)) → ∀ v, P v → P (l.foldl f v) := by
  intro l
  induction l with
  | nil => intro _ v hv; exact hv
  | cons a l ih =>
    intro h v hv
    exact ih (fun x hx => h x (List.mem_cons_of_mem a hx))
      (f v a) (h a (List.mem_cons_self a l) v hv)

theorem foldl_id_of {α β : Type} (f : β → α → β) :
    ∀ l : List α, (∀ a ∈ l, ∀ v, f v a = v) → ∀ v, l.foldl f v = v := by
  intro l
  induction l with
  | nil => intro _ v; rfl
  | cons a l ih =>
    intro h v
    rw [List.foldl_cons, h a (List.mem_cons_self a l) v]
    exact ih (fun x hx => h x (List.mem_cons_of_mem a hx)) v

theorem alGet_fold_index (t : String) :
    ∀ (rows : List IndexRow) (d : List (String × List (String × String))),
      alGet t (rows.foldl (fun d r => applyIndexRow r d) d) =
        (alGet t d).map (fun l =>
          l ++ (rows.filter (fun r => r.tablename == t)).map (fun r => (r.indexname, r.indexdef))) := by
  intro rows
  induction rows with
  | nil =>
    intro d
    simp only [List.foldl_nil, List.filter_nil, List.map_nil, List.append_nil]
    cases alGet t d <;> rfl
  | cons r rows ih =>
    intro d
    rw [List.foldl_cons, ih]
    by_cases hrt : r.tablename = t
    · have hcase : alGet t (applyIndexRow r d) =
          (alGet t d).map (fun l => l ++ [(r.indexname, r.indexdef)]) := by
        unfold applyIndexRow
        rw [hrt]
        by_cases hh : alHas t d
        · simp [hh, alGet_alMod_self]
        · have : alGet t d = none := by
            cases he : alGet t d
            · rfl
            · exact absurd (by simp [alHas, he]) hh
          simp [hh, this]
      rw [hcase, List.filter_cons_of_pos (by simp [hrt])]
      cases alGet t d <;> simp
    · have hcase : alGet t (applyIndexRow r d) = alGet t d := by
        unfold applyIndexRow
        by_cases hh : alHas r.tablename d
        · simp [hh, alGet_alMod_ne t r.tablename _ (fun he => hrt he.symm)]
        · simp [hh]
      rw [hcase, List.filter_cons_of_neg (by simp [hrt])]

theorem alGet_step_update (t k : String) (f : PartInfo → PartInfo)
    (d : List (String × PartInfo)) (v : PartInfo) (hv : alGet t d = some v) :
    alGet t (if alHas k d then alMod k f d else d) = some (if k = t then f v else v) := by
  by_cases hkt : k = t
  · subst hkt
    have hh : alHas k d = true := by simp [alHas, hv]
    simp [hh, alGet_alMod_self, hv]
  · have hne : t ≠ k := fun he => hkt he.symm
    by_cases hh : alHas k d
    · simp [hh, alGet_alMod_ne t k f hne, hv, hkt]
    · simp [hh, hv, hkt]

theorem alGet_fold_parentRows (t : String) :
    ∀ (rows : List (String × Option String × List String))
      (d : List (String × PartInfo)) (v : PartInfo), alGet t d = some v →
      alGet t (rows.foldl (fun d r => applyParentRow r d) d) =
        some (rows.foldl (parentRowStepOn t) v) := by
  intro rows
  induction rows with
  | nil => intro d v hv; exact hv
  | cons r rows ih =>
    intro d v hv
    rw [List.foldl_cons, List.foldl_cons]
    apply ih
    unfold applyParentRow parentRowStepOn
    by_cases hrt : r.1 = t
    · rw [hrt]
      have hh : alHas t d := by simp [alHas, hv]
      simp [hh, alGet_alMod_self, hv, hrt]
    · have hne : t ≠ r.1 := fun he => hrt he.symm
      by_cases hh : alHas r.1 d
      · simp [hh, alGet_alMod_ne t r.1 _ hne, hv, hrt]
      · simp [hh, hv, hrt]

theorem alGet_fold_inheritRows (t : String) :
    ∀ (rows : List InheritRow) (d : List (String × PartInfo)) (v : PartInfo),
      alGet t d = some v →
      alGet t (rows.foldl (fun d r => applyInheritRow r d) d) =
        some (rows.foldl (inhStepOn t) v) := by
  intro rows
  induction rows with
  | nil => intro d v hv; exact hv
  | cons r rows ih =>
    intro d v hv
    rw [List.foldl_cons, List.foldl_cons]
    apply ih
    simp only [applyInheritRow, inhStepOn]
    exact alGet_step_update t r.childName _ _ _
      (alGet_step_update t r.parentName _ d v hv)

theorem parentUpd_estab (child bounds : String) (v : PartInfo) :
    (parentUpd child bounds v).is_partitioned = some true ∧
    (child, bounds) ∈ (parentUpd child bounds v).children.getD [] := by
  unfold parentUpd
  by_cases hg : v.is_partitioned.getD false = true
  · have hip : v.is_partitioned = some true := by
      cases h : v.is_partitioned with
      | none => rw [h] at hg; simp at hg
      | some b => rw [h] at hg; simp at hg; rw [hg]
    simp [hg, hip]
  · simp [hg]

theorem parentUpd_preserves (child bounds c b : String) (v : PartInfo)
    (h1 : v.is_partitioned = some true) (h2 : (c, b) ∈ v.children.getD []) :
    (parentUpd child bounds v).is_partitioned = some true ∧
    (c, b) ∈ (parentUpd child bounds v).children.getD [] := by
  unfold parentUpd
  simp [h1]
  exact Or.inl h2

theorem parentUpd_child_fields (child bounds : String) (v : PartInfo) :
    (parentUpd child bounds v).is_partition = v.is_partition ∧
    (parentUpd child bounds v).parent = v.parent ∧
    (parentUpd child bounds v).bounds = v.bounds := by
  unfold parentUpd
  by_cases hg : v.is_partitioned.getD false = true <;> simp [hg]

theorem childUpd_fields (parent bounds : String) (v : PartInfo) :
    (childUpd parent bounds v).is_partition = some true ∧
    (childUpd parent bounds v).parent = some parent ∧
    (childUpd parent bounds v).bounds = some bounds :=
  ⟨rfl, rfl, rfl⟩

theorem childUpd_parent_fields (parent bounds : String) (v : PartInfo) :
    (childUpd parent bounds v).is_partitioned = v.is_partitioned ∧
    (childUpd parent bounds v).children = v.children :=
  ⟨rfl, rfl⟩

theorem quoteIdent_head (x : String) : (quoteIdent x).data.head? = some '"' := rfl

theorem startsWithDEFAULT_cons (c : Char) (l : List Char) (hc : c ≠ 'D') :
    ("DEFAULT ".data.isPrefixOf (c :: l)) = false := by
  have hd : "DEFAULT ".data = 'D' :: "EFAULT ".data := rfl
  rw [hd]
  simp [List.isPrefixOf, Ne.symm hc]

theorem startsWithDEFAULT_quoteIdent (x : String) :
    startsWithDEFAULT (quoteIdent x) = false :=
  startsWithDEFAULT_cons '"'
    (x.data.foldr (fun c acc => if c = '"' then '"' :: '"' :: acc else c :: acc) ['"'])
    (by decide)

theorem startsWithDEFAULT_append (d : String) :
    startsWithDEFAULT ("DEFAULT " ++ d) = true := by
  unfold startsWithDEFAULT
  rw [String.data_append]
  exact List.isPrefixOf_iff_prefix.mpr (List.prefix_append _ _)

theorem quoteIdent_ne_genAlways (x : String) :
    quoteIdent x ≠ "GENERATED ALWAYS AS IDENTITY" := by
  intro he
  have h1 : (quoteIdent x).data.head? = some '"' := rfl
  rw [he] at h1
  exact absurd h1 (by decide)

theorem quoteIdent_ne_genDefault (x : String) :
    quoteIdent x ≠ "GENERATED BY DEFAULT AS IDENTITY" := by
  intro he
  have h1 : (quoteIdent x).data.head? = some '"' := rfl
  rw [he] at h1
  exact absurd h1 (by decide)

theorem defaultClause_ne_genAlways (d : String) :
    ("DEFAULT " ++ d) ≠ "GENERATED ALWAYS AS IDENTITY" := by
  intro he
  have h1 : ("DEFAULT " ++ d).data.head? = some 'D' := by
    rw [String.data_append]; rfl
  rw [he] at h1
  exact absurd h1 (by decide)

theorem defaultClause_ne_genDefault (d : String) :
    ("DEFAULT " ++ d) ≠ "GENERATED BY DEFAULT AS IDENTITY" := by
  intro he
  have h1 : ("DEFAULT " ++ d).data.head? = some 'D' := by
    rw [String.data_append]; rfl
  rw [he] at h1
  exact absurd h1 (by decide)

theorem api_ok_elim (s : DBState) (schema : String) (snap : Snapshot)
    (h : api_table_schemas s schema = .ok snap) :
    ∃ mapping, list_table_schemas s schema = .ok mapping ∧
      snap = buildSnapshot s schema mapping := by
  unfold api_table_schemas at h
  cases hm : list_table_schemas s schema with
  | error e => rw [hm] at h; exact absurd h (by simp)
  | ok mapping =>
    rw [hm] at h
    have h0 : (if s.failing.contains QTag.indexesFetch then
        (Except.error (Err.catalogQueryError "index query failed") : Except Err Snapshot)
      else if s.failing.contains QTag.partParentsFetch then
        .error (.catalogQueryError "partitioned-table query failed")
      else if s.failing.contains QTag.inheritsFetch then
        .error (.catalogQueryError "inheritance query failed")
      else .ok (buildSnapshot s schema mapping)) = .ok snap := h
    split_ifs at h0 with h1 h2 h3
    exact ⟨mapping, rfl, ((Except.ok.injEq _ _).mp h0).symm⟩

theorem schemasFold_error (s : DBState) (schema : String) :
    ∀ (pre : List String) (t : String) (post : List String) (e : Err)
      (acc : List (String × String)),
      (∀ u ∈ pre, ∃ d, table_schema s u schema = .ok d) →
      table_schema s t schema = .error e →
      schemasFold s schema (pre ++ t :: post) acc = .error e := by
  intro pre
  induction pre with
  | nil =>
    intro t post e acc _ ht
    simp [schemasFold, ht]
  | cons u us ih =>
    intro t post e acc hpre ht
    obtain ⟨d, hd⟩ := hpre u (List.mem_cons_self u us)
    rw [List.cons_append]
    unfold schemasFold
    rw [hd]
    exact ih t post e (dictInsert u d acc) (fun v hv => hpre v (List.mem_cons_of_mem u hv)) ht

theorem createStmt_semicolon (schema table_name : String) (ls : List String) :
    ∃ p, createStmt schema table_name ls = p ++ ";" := by
  refine ⟨"CREATE TABLE " ++ quoteIdent schema ++ "." ++ quoteIdent table_name ++ " (\n  "
    ++ String.intercalate ",\n  " ls ++ "\n)", ?_⟩
  unfold createStmt
  have h1 : ("\n);" : String) = "\n)" ++ ";" := by decide
  rw [h1, ← String.append_assoc]

/-- C1 counterexample: for a table with a primary key, a unique constraint
and a check constraint, the constraint rows emitted by `table_schema`
(`ORDER BY contype DESC, conname`) list the unique constraint first — the
primary-key constraint is not first and not before the unique constraint,
refuting the claimed kind-priority order. -/
theorem constraint_order_counterexample :
    (consQuery stC1 "public" "t").map constraintLine =
      ["CONSTRAINT \"t_email_key\" UNIQUE (email)",
       "CONSTRAINT \"t_pkey\" PRIMARY KEY (id)",
       "CONSTRAINT \"t_age_check\" CHECK (age >= 0)"] ∧
    (consQuery stC1 "public" "t").map (fun r => r.contype) = ['u', 'p', 'c'] ∧
    ¬ ((consQuery stC1 "public" "t").head?.map (fun r => r.contype) = some 'p') := by
  decide

/-- C1 (amended): the constraints emitted by `table_schema` are sorted by
the kind character (`contype`) descending — exclusion before unique before
primary key before foreign key before check — with ties broken by
constraint name ascending. -/
theorem constraint_order_sorted (s : DBState) (schema table_name : String) :
    List.Pairwise (fun a b => b.contype < a.contype ∨
        (a.contype = b.contype ∧ strLeB a.conname b.conname = true))
      (consQuery s schema table_name) := by
  have h := sortBy_sorted conLeB conLeB_trans conLeB_total (s.cons schema table_name)
  refine h.imp ?_
  intro a b hab
  unfold conLeB lexLe at hab
  by_cases he : a.contype = b.contype
  · rw [if_pos he] at hab
    exact Or.inr ⟨he, hab⟩
  · rw [if_neg he] at hab
    have hle : b.contype ≤ a.contype := of_decide_eq_true hab
    exact Or.inl (lt_of_le_of_ne hle (fun hba => he hba.symm))

/-- C2: on the failing input `stC2` — table `m` with columns `a` (attnum 1),
`b` (attnum 2) and declared partition key `partattrs = [2, 1]`, i.e.
`(b, a)` — the partitioned-parent query of `api_table_schemas` returns the
key columns as `["a", "b"]` (table-ordinal order, from
`array_agg(... ORDER BY a.attnum)`), while the declared partition-key order
is `["b", "a"]`; the aggregation ignores the `WITH ORDINALITY` position. -/
theorem partition_key_order_bug :
    partParentsQuery stC2 "public" = [("m", some "RANGE", ["a", "b"])] ∧
    stC2.partParents = [⟨"public", "m", 'r', [2, 1]⟩] ∧
    keyColumnsByPartitionKey stC2 "public" "m" [2, 1] = ["b", "a"] ∧
    ¬ ((partParentsQuery stC2 "public").map (fun r => r.2.2) =
        [keyColumnsByPartitionKey stC2 "public" "m" [2, 1]]) := by
  decide

/-- C3: a rendered column fragment never contains both an identity clause
and a `DEFAULT` clause: the identity clause appears exactly when the
identity kind is `a` or `d` (suppressing any default, even when the catalog
reports both), and a `DEFAULT` clause appears exactly when the identity
kind is neither and a truthy default expression exists.  The two
side conditions only exclude a catalog type string that itself spells a
`DEFAULT` or identity clause. -/
theorem startsWithDEFAULT_genAlways :
    startsWithDEFAULT "GENERATED ALWAYS AS IDENTITY" = false := by decide

theorem startsWithDEFAULT_genDefault :
    startsWithDEFAULT "GENERATED BY DEFAULT AS IDENTITY" = false := by decide

theorem startsWithDEFAULT_notNull : startsWithDEFAULT "NOT NULL" = false := by decide

theorem identity_default_exclusive (r : ColRow)
    (hdt : startsWithDEFAULT r.dataType = false)
    (hga : r.dataType ≠ "GENERATED ALWAYS AS IDENTITY")
    (hgd : r.dataType ≠ "GENERATED BY DEFAULT AS IDENTITY") :
    ¬ (hasIdentityClause (colParts r) = true ∧ hasDefaultClause (colParts r) = true) ∧
    (hasIdentityClause (colParts r) = true ↔ (r.identityKind = "a" ∨ r.identityKind = "d")) ∧
    (hasDefaultClause (colParts r) = true ↔
      (¬ (r.identityKind = "a" ∨ r.identityKind = "d") ∧ truthyStr r.defaultExpr = true)) := by
  by_cases hid : r.identityKind = "a" ∨ r.identityKind = "d"
  · rcases hid with hia | hid2
    · by_cases hnn : r.notNull = true <;>
        simp [colParts, hasIdentityClause, hasDefaultClause, hia, hnn,
          startsWithDEFAULT_quoteIdent, hdt, startsWithDEFAULT_genAlways,
          startsWithDEFAULT_genDefault, startsWithDEFAULT_notNull,
          quoteIdent_ne_genAlways, quoteIdent_ne_genDefault, hga, hgd]
    · by_cases hnn : r.notNull = true <;>
        simp [colParts, hasIdentityClause, hasDefaultClause, hid2, hnn,
          startsWithDEFAULT_quoteIdent, hdt, startsWithDEFAULT_genAlways,
          startsWithDEFAULT_genDefault, startsWithDEFAULT_notNull,
          quoteIdent_ne_genAlways, quoteIdent_ne_genDefault, hga, hgd]
  · by_cases hdef : truthyStr r.defaultExpr = true <;>
      by_cases hnn : r.notNull = true <;>
      simp [colParts, hasIdentityClause, hasDefaultClause, hid, hdef, hnn,
        startsWithDEFAULT_quoteIdent, hdt, startsWithDEFAULT_notNull,
        startsWithDEFAULT_append, quoteIdent_ne_genAlways, quoteIdent_ne_genDefault,
        hga, hgd, defaultClause_ne_genAlways, defaultClause_ne_genDefault]

/-- C3 witness: a column row whose catalog data reports identity kind `a`
and a default expression; the identity clause is rendered and no `DEFAULT`
clause appears. -/
theorem identity_default_exclusive_witness :
    startsWithDEFAULT rC3.dataType = false ∧
    rC3.dataType ≠ "GENERATED ALWAYS AS IDENTITY" ∧
    rC3.dataType ≠ "GENERATED BY DEFAULT AS IDENTITY" ∧
    (¬ (hasIdentityClause (colParts rC3) = true ∧ hasDefaultClause (colParts rC3) = true) ∧
     (hasIdentityClause (colParts rC3) = true ↔ (rC3.identityKind = "a" ∨ rC3.identityKind = "d")) ∧
     (hasDefaultClause (colParts rC3) = true ↔
       (¬ (rC3.identityKind = "a" ∨ rC3.identityKind = "d") ∧ truthyStr rC3.defaultExpr = true))) :=
  ⟨by decide, by decide, by decide,
   identity_default_exclusive rC3 (by decide) (by decide) (by decide)⟩

/-- C4: when the probe reports native-dump support and the native function
returns truthy text, `table_schema` returns exactly that text normalized by
the trailing-semicolon rule, and its query trace is just the probe and the
native call: no existence check, column fetch or constraint fetch runs. -/
theorem native_fast_path (s : DBState) (table_name schema r : String)
    (hp : QTag.probe ∉ s.failing)
    (hn : QTag.nativeDump ∉ s.failing)
    (hav : pg_get_tabledef_available s = true)
    (hr : s.nativeDump (schema ++ "." ++ table_name) = some r)
    (hne : r ≠ "") :
    table_schemaT s table_name schema =
      (.ok (rstripSemis r ++ ";"), [QTag.probe, QTag.nativeDump]) ∧
    QTag.existsCheck ∉ (table_schemaT s table_name schema).2 ∧
    QTag.colsFetch ∉ (table_schemaT s table_name schema).2 ∧
    QTag.constraintsFetch ∉ (table_schemaT s table_name schema).2 := by
  have hmain : table_schemaT s table_name schema =
      (.ok (rstripSemis r ++ ";"), [QTag.probe, QTag.nativeDump]) := by
    unfold table_schemaT
    rw [hr]
    simp [hp, hav, hn, truthyStr, hne]
  refine ⟨hmain, ?_, ?_, ?_⟩ <;> rw [hmain] <;> simp

/-- C4 witness: a catalog exposing `pg_get_tabledef` whose dump text ends in
two semicolons; the returned DDL is that text with the semicolons
normalized, and the trace holds only the probe and the native call. -/
theorem native_fast_path_witness :
    QTag.probe ∉ stC4.failing ∧
    QTag.nativeDump ∉ stC4.failing ∧
    pg_get_tabledef_available stC4 = true ∧
    stC4.nativeDump ("public" ++ "." ++ "users") = some "CREATE TABLE users (id int);;" ∧
    "CREATE TABLE users (id int);;" ≠ "" ∧
    (table_schemaT stC4 "users" "public" =
      (.ok (rstripSemis "CREATE TABLE users (id int);;" ++ ";"), [QTag.probe, QTag.nativeDump]) ∧
     QTag.existsCheck ∉ (table_schemaT stC4 "users" "public").2 ∧
     QTag.colsFetch ∉ (table_schemaT stC4 "users" "public").2 ∧
     QTag.constraintsFetch ∉ (table_schemaT stC4 "users" "public").2) :=
  ⟨by decide, by decide, by decide, by decide, by decide,
   native_fast_path stC4 "users" "public" "CREATE TABLE users (id int);;"
     (by decide) (by decide) (by decide) (by decide) (by decide)⟩

/-- C5: when the native path produced no text and the named table is not a
base table of the schema, `table_schema` fails with the distinct
table-not-found error carrying the `Table <schema>.<table> does not exist.`
message — not a catalog-query error. -/
theorem missing_table_not_found (s : DBState) (table_name schema : String)
    (hfail : s.failing = [])
    (hnat : truthyStr (s.nativeDump (schema ++ "." ++ table_name)) = false)
    (hex : tableIsBase s schema table_name = false) :
    table_schema s table_name schema =
      .error (.tableNotFoundError
        ("Table " ++ schema ++ "." ++ table_name ++ " does not exist.")) := by
  unfold table_schema table_schemaT table_schema_recon
  by_cases hav : pg_get_tabledef_available s = true
  · simp [hfail, hav, hnat, hex]
  · simp [hfail, hav, hex]

/-- C5 witness: `tableDDL("ghost", "public")` on an empty catalog fails with
the table-not-found error. -/
theorem missing_table_not_found_witness :
    stC5.failing = [] ∧
    truthyStr (stC5.nativeDump ("public" ++ "." ++ "ghost")) = false ∧
    tableIsBase stC5 "public" "ghost" = false ∧
    table_schema stC5 "ghost" "public" =
      .error (.tableNotFoundError
        ("Table " ++ "public" ++ "." ++ "ghost" ++ " does not exist.")) :=
  ⟨rfl, by decide, by decide,
   missing_table_not_found stC5 "ghost" "public" rfl (by decide) (by decide)⟩

/-- C6: when the tables of a schema split as `pre ++ t :: post` with every
table of `pre` synthesizing successfully and `t` failing, both
`list_table_schemas` and `api_table_schemas` surface exactly `t`'s error,
and no partial mapping is ever returned. -/
theorem aggregation_atomic (s : DBState) (schema : String) (pre : List String)
    (t : String) (post : List String) (e : Err)
    (hq : s.failing.contains QTag.listTablesQ = false)
    (hsplit : list_tables s schema = pre ++ t :: post)
    (hpre : ∀ u ∈ pre, ∃ d, table_schema s u schema = .ok d)
    (ht : table_schema s t schema = .error e) :
    list_table_schemas s schema = .error e ∧
    api_table_schemas s schema = .error e ∧
    ∀ m, list_table_schemas s schema ≠ .ok m := by
  have h1 : list_table_schemas s schema = .error e := by
    unfold list_table_schemas
    simp only [hq, Bool.false_eq_true, if_false]
    rw [hsplit]
    exact schemasFold_error s schema pre t post e [] hpre ht
  refine ⟨h1, ?_, ?_⟩
  · unfold api_table_schemas
    rw [h1]
  · intro m hm
    rw [h1] at hm
    exact Except.noConfusion hm

/-- C6 witness: table `a` succeeds via the native dump, table `b`'s column
query raises; the aggregation surfaces `b`'s error and returns no map. -/
theorem aggregation_atomic_witness :
    stC6.failing.contains QTag.listTablesQ = false ∧
    list_tables stC6 "public" = ["a"] ++ "b" :: [] ∧
    table_schema stC6 "b" "public" = .error (.catalogQueryError "column query failed") ∧
    (list_table_schemas stC6 "public" = .error (.catalogQueryError "column query failed") ∧
     api_table_schemas stC6 "public" = .error (.catalogQueryError "column query failed") ∧
     ∀ m, list_table_schemas stC6 "public" ≠ .ok m) :=
  ⟨by decide, by decide, rfl,
   aggregation_atomic stC6 "public" ["a"] "b" [] (.catalogQueryError "column query failed")
     (by decide) (by decide)
     (by
       intro u hu
       have hu2 : u = "a" := List.mem_singleton.mp hu
       rw [hu2]
       exact ⟨"CREATE TABLE a ();", rfl⟩)
     rfl⟩

/-- C10: every DDL text returned by `table_schema` ends with a semicolon:
the native path strips trailing semicolons and appends exactly one, the
reconstruction path terminates the statement with `);`. -/
theorem tableDDL_trailing_semicolon (s : DBState) (table_name schema d : String)
    (h : table_schema s table_name schema = .ok d) : ∃ p, d = p ++ ";" := by
  unfold table_schema table_schemaT table_schema_recon at h
  split_ifs at h
  all_goals simp at h
  all_goals rw [← h]
  all_goals first
    | exact ⟨_, rfl⟩
    | exact createStmt_semicolon _ _ _

/-- C10 witness: a reconstruction-path DDL, ending with `);`. -/
theorem tableDDL_trailing_semicolon_witness :
    table_schema stC10 "users" "public" = .ok dC10 ∧ ∃ p, dC10 = p ++ ";" :=
  ⟨rfl, tableDDL_trailing_semicolon stC10 "users" "public" dC10 rfl⟩

theorem inhStepOn_parent_estab (r : InheritRow) (v : PartInfo) :
    (inhStepOn r.parentName v r).is_partitioned = some true ∧
    (r.childName, r.relpartbound.getD "") ∈ (inhStepOn r.parentName v r).children.getD [] := by
  simp only [inhStepOn, if_true]
  by_cases hcp : r.childName = r.parentName
  · rw [if_pos hcp]
    have h0 := parentUpd_estab r.childName (r.relpartbound.getD "") v
    have h1 := childUpd_parent_fields r.parentName (r.relpartbound.getD "")
      (parentUpd r.childName (r.relpartbound.getD "") v)
    refine ⟨h1.1.trans h0.1, ?_⟩
    rw [h1.2]
    exact h0.2
  · rw [if_neg hcp]
    exact parentUpd_estab _ _ v

theorem inhStepOn_parent_pres (p c b : String) (r2 : InheritRow) (v : PartInfo)
    (hv : v.is_partitioned = some true ∧ (c, b) ∈ v.children.getD []) :
    (inhStepOn p v r2).is_partitioned = some true ∧
    (c, b) ∈ (inhStepOn p v r2).children.getD [] := by
  simp only [inhStepOn]
  have hinner : (if r2.parentName = p then
        parentUpd r2.childName (r2.relpartbound.getD "") v else v).is_partitioned = some true ∧
      (c, b) ∈ (if r2.parentName = p then
        parentUpd r2.childName (r2.relpartbound.getD "") v else v).children.getD [] := by
    by_cases h1 : r2.parentName = p
    · rw [if_pos h1]
      exact parentUpd_preserves _ _ c b v hv.1 hv.2
    · rw [if_neg h1]
      exact hv
  by_cases h2 : r2.childName = p
  · rw [if_pos h2]
    have h3 := childUpd_parent_fields r2.parentName (r2.relpartbound.getD "")
      (if r2.parentName = p then parentUpd r2.childName (r2.relpartbound.getD "") v else v)
    refine ⟨h3.1.trans hinner.1, ?_⟩
    rw [h3.2]
    exact hinner.2
  · rw [if_neg h2]
    exact hinner

theorem inhStepOn_child_estab (r : InheritRow) (v : PartInfo) :
    (inhStepOn r.childName v r).is_partition = some true ∧
    (inhStepOn r.childName v r).parent = some r.parentName ∧
    (inhStepOn r.childName v r).bounds = some (r.relpartbound.getD "") := by
  simp only [inhStepOn, if_true]
  exact childUpd_fields _ _ _

theorem inhStepOn_child_pres (r r2 : InheritRow) (v : PartInfo)
    (huni : r2.childName = r.childName →
      r2.parentName = r.parentName ∧ r2.relpartbound = r.relpartbound)
    (hv : v.is_partition = some true ∧ v.parent = some r.parentName ∧
      v.bounds = some (r.relpartbound.getD "")) :
    (inhStepOn r.childName v r2).is_partition = some true ∧
    (inhStepOn r.childName v r2).parent = some r.parentName ∧
    (inhStepOn r.childName v r2).bounds = some (r.relpartbound.getD "") := by
  simp only [inhStepOn]
  by_cases h2 : r2.childName = r.childName
  · rw [if_pos h2]
    obtain ⟨hpp, hbb⟩ := huni h2
    rw [hpp, hbb]
    exact childUpd_fields _ _ _
  · rw [if_neg h2]
    by_cases h1 : r2.parentName = r.childName
    · rw [if_pos h1]
      have h3 := parentUpd_child_fields r2.childName (r2.relpartbound.getD "") v
      exact ⟨h3.1.trans hv.1, h3.2.1.trans hv.2.1, h3.2.2.trans hv.2.2⟩
    · rw [if_neg h1]
      exact hv

/-- C7: every base table of the schema has an entry in the snapshot's index
mapping; the entry equals the table's rows of the sorted index query, so a
table with zero indexes maps to the empty sequence rather than a missing
key, and each populated list is ordered by index name. -/
theorem index_mapping_complete (s : DBState) (schema : String) (snap : Snapshot)
    (h : api_table_schemas s schema = .ok snap) :
    ∀ t ∈ snap.tables, ∃ l,
      alGet t snap.indexes = some l ∧
      l = ((indexesQuery s schema).filter (fun r => r.tablename == t)).map
            (fun r => (r.indexname, r.indexdef)) ∧
      (((indexesQuery s schema).filter (fun r => r.tablename == t)) = [] → l = []) ∧
      List.Pairwise (fun a b => strLeB a.1 b.1 = true) l := by
  obtain ⟨mapping, hm, hsnap⟩ := api_ok_elim s schema snap h
  subst hsnap
  intro t ht
  have ht2 : t ∈ (sortBy (fun a b => strLeB a.1 b.1) mapping).map (fun p => p.1) := ht
  set tns := (sortBy (fun a b => strLeB a.1 b.1) mapping).map (fun p => p.1) with htns
  have hinit : alGet t (tns.map (fun t => (t, ([] : List (String × String))))) = some [] :=
    alGet_initConst t [] tns ht2
  have hfold := alGet_fold_index t (indexesQuery s schema)
    (tns.map (fun t => (t, ([] : List (String × String)))))
  rw [hinit] at hfold
  simp only [Option.map_some', List.nil_append] at hfold
  refine ⟨((indexesQuery s schema).filter (fun r => r.tablename == t)).map
      (fun r => (r.indexname, r.indexdef)), ?_, rfl, ?_, ?_⟩
  · exact hfold
  · intro hnil
    rw [hnil]
    rfl
  · have hs := sortBy_sorted idxLeB idxLeB_trans idxLeB_total
      (s.pgIndexes.filter (fun r => r.schemaname == schema))
    have hf : List.Pairwise (fun a b => idxLeB a b = true)
        ((indexesQuery s schema).filter (fun r => r.tablename == t)) :=
      hs.filter _
    refine List.pairwise_map.mpr (List.Pairwise.imp_of_mem ?_ hf)
    intro a b ha hb hab
    have hat : a.tablename = t := by
      have := (List.mem_filter.mp ha).2
      simpa using this
    have hbt : b.tablename = t := by
      have := (List.mem_filter.mp hb).2
      simpa using this
    simp only [idxLeB, lexLe] at hab
    rw [hat, hbt] at hab
    simp at hab
    exact hab

/-- C7 witness: in the `stC7` snapshot, table `b` has zero indexes and maps
to the empty, trivially sorted sequence. -/
theorem index_mapping_complete_witness :
    api_table_schemas stC7 "public" = .ok snapC7 ∧
    "b" ∈ snapC7.tables ∧
    (∃ l, alGet "b" snapC7.indexes = some l ∧
      l = ((indexesQuery stC7 "public").filter (fun r => r.tablename == "b")).map
            (fun r => (r.indexname, r.indexdef)) ∧
      (((indexesQuery stC7 "public").filter (fun r => r.tablename == "b")) = [] → l = []) ∧
      List.Pairwise (fun a b => strLeB a.1 b.1 = true) l) :=
  ⟨rfl, by decide, index_mapping_complete stC7 "public" snapC7 rfl "b" (by decide)⟩

/-- C8: for every inheritance row of the schema whose parent and child are
both known tables, and whose child is linked to a unique parent and bound,
the snapshot's partition mapping lists the child with its bound text under
the parent's entry, and the child's own entry carries `is_partition = true`,
the same parent name and the same bound text. -/
theorem partition_linkage (s : DBState) (schema : String) (snap : Snapshot) (r : InheritRow)
    (h : api_table_schemas s schema = .ok snap)
    (hr : r ∈ inheritsQuery s schema)
    (huniq : ∀ r2 ∈ inheritsQuery s schema, r2.childName = r.childName →
      r2.parentName = r.parentName ∧ r2.relpartbound = r.relpartbound)
    (hp : r.parentName ∈ snap.tables) (hc : r.childName ∈ snap.tables) :
    ∃ pi ci, alGet r.parentName snap.partitions = some pi ∧
      pi.is_partitioned = some true ∧
      (r.childName, r.relpartbound.getD "") ∈ pi.children.getD [] ∧
      alGet r.childName snap.partitions = some ci ∧
      ci.is_partition = some true ∧
      ci.parent = some r.parentName ∧
      ci.bounds = some (r.relpartbound.getD "") := by
  obtain ⟨mapping, hm, hsnap⟩ := api_ok_elim s schema snap h
  subst hsnap
  set tns := (sortBy (fun a b => strLeB a.1 b.1) mapping).map (fun p => p.1) with htns
  have hp2 : r.parentName ∈ tns := hp
  have hc2 : r.childName ∈ tns := hc
  have hinitP : alGet r.parentName (tns.map (fun t => (t, emptyPartInfo))) = some emptyPartInfo :=
    alGet_initConst _ _ tns hp2
  have hinitC : alGet r.childName (tns.map (fun t => (t, emptyPartInfo))) = some emptyPartInfo :=
    alGet_initConst _ _ tns hc2
  have hp1 := alGet_fold_parentRows r.parentName (partParentsQuery s schema) _ _ hinitP
  have hc1 := alGet_fold_parentRows r.childName (partParentsQuery s schema) _ _ hinitC
  have hp3 := alGet_fold_inheritRows r.parentName (inheritsQuery s schema) _ _ hp1
  have hc3 := alGet_fold_inheritRows r.childName (inheritsQuery s schema) _ _ hc1
  obtain ⟨pre, post, hsplit⟩ := List.append_of_mem hr
  have hmempost : ∀ r2 ∈ post, r2 ∈ inheritsQuery s schema := by
    intro r2 h2
    rw [hsplit]
    exact List.mem_append.mpr (Or.inr (List.mem_cons_of_mem r h2))
  have hPfin : ∀ v0 : PartInfo,
      ((inheritsQuery s schema).foldl (inhStepOn r.parentName) v0).is_partitioned = some true ∧
      (r.childName, r.relpartbound.getD "") ∈
        ((inheritsQuery s schema).foldl (inhStepOn r.parentName) v0).children.getD [] := by
    intro v0
    rw [hsplit, List.foldl_append, List.foldl_cons]
    refine foldl_preserve
      (fun v => v.is_partitioned = some true ∧
        (r.childName, r.relpartbound.getD "") ∈ v.children.getD [])
      (inhStepOn r.parentName) post ?_ _ ?_
    · intro r2 _ v hv
      exact inhStepOn_parent_pres r.parentName r.childName (r.relpartbound.getD "") r2 v hv
    · exact inhStepOn_parent_estab r (List.foldl (inhStepOn r.parentName) v0 pre)
  have hCfin : ∀ v0 : PartInfo,
      ((inheritsQuery s schema).foldl (inhStepOn r.childName) v0).is_partition = some true ∧
      ((inheritsQuery s schema).foldl (inhStepOn r.childName) v0).parent = some r.parentName ∧
      ((inheritsQuery s schema).foldl (inhStepOn r.childName) v0).bounds =
        some (r.relpartbound.getD "") := by
    intro v0
    rw [hsplit, List.foldl_append, List.foldl_cons]
    refine foldl_preserve
      (fun v => v.is_partition = some true ∧ v.parent = some r.parentName ∧
        v.bounds = some (r.relpartbound.getD ""))
      (inhStepOn r.childName) post ?_ _ ?_
    · intro r2 h2 v hv
      exact inhStepOn_child_pres r r2 v (fun hcc => huniq r2 (hmempost r2 h2) hcc) hv
    · exact inhStepOn_child_estab r (List.foldl (inhStepOn r.childName) v0 pre)
  exact ⟨_, _, hp3, (hPfin _).1, (hPfin _).2, hc3, (hCfin _).1, (hCfin _).2.1, (hCfin _).2.2⟩

/-- C8 witness: parent `m` with children `m1`, `m2`; the row linking `m1` is
listed under `m` with its bound text, and `m1`'s own entry reports the same
parent and bound. -/
theorem partition_linkage_witness :
    api_table_schemas stC8 "public" = .ok snapC8 ∧
    (⟨"public", "m", "public", "m1", some "FOR VALUES IN (1)"⟩ : InheritRow) ∈
      inheritsQuery stC8 "public" ∧
    (∀ r2 ∈ inheritsQuery stC8 "public", r2.childName = "m1" →
      r2.parentName = "m" ∧ r2.relpartbound = some "FOR VALUES IN (1)") ∧
    "m" ∈ snapC8.tables ∧ "m1" ∈ snapC8.tables ∧
    (∃ pi ci, alGet "m" snapC8.partitions = some pi ∧
      pi.is_partitioned = some true ∧
      ("m1", "FOR VALUES IN (1)") ∈ pi.children.getD [] ∧
      alGet "m1" snapC8.partitions = some ci ∧
      ci.is_partition = some true ∧
      ci.parent = some "m" ∧
      ci.bounds = some "FOR VALUES IN (1)") :=
  ⟨rfl, by decide, by decide, by decide, by decide,
   partition_linkage stC8 "public" snapC8
     ⟨"public", "m", "public", "m1", some "FOR VALUES IN (1)"⟩
     rfl (by decide) (by decide) (by decide) (by decide)⟩

/-- C9 counterexample: on `stC9` the single table `t` appears in none of the
three partition passes, yet the snapshot's partition mapping does contain an
entry for `t` — the empty object `{}` from the initialization of line 93 of
`app.py` — so "no PartitionInfo entry" is false as stated. -/
theorem no_partition_entry_counterexample :
    api_table_schemas stC9 "public" = .ok snapC9 ∧
    partParentsQuery stC9 "public" = [] ∧
    inheritsQuery stC9 "public" = [] ∧
    alGet "t" snapC9.partitions = some emptyPartInfo ∧
    alGet "t" snapC9.partitions ≠ none :=
  ⟨rfl, rfl, rfl, rfl, by decide⟩

/-- C9 (amended): a table that is neither identified as a partitioned
parent, nor linked as a parent or child by any inheritance row, keeps its
initial empty PartitionInfo entry — the key is present, mapped to the empty
object with no partition fields set. -/
theorem untouched_table_empty (s : DBState) (schema : String) (snap : Snapshot) (t : String)
    (h : api_table_schemas s schema = .ok snap) (ht : t ∈ snap.tables)
    (h1 : ∀ pr ∈ partParentsQuery s schema, pr.1 ≠ t)
    (h2 : ∀ r ∈ inheritsQuery s schema, r.parentName ≠ t ∧ r.childName ≠ t) :
    alGet t snap.partitions = some emptyPartInfo := by
  obtain ⟨mapping, hm, hsnap⟩ := api_ok_elim s schema snap h
  subst hsnap
  have ht2 : t ∈ (sortBy (fun a b => strLeB a.1 b.1) mapping).map (fun p => p.1) := ht
  set tns := (sortBy (fun a b => strLeB a.1 b.1) mapping).map (fun p => p.1) with htns
  have hinit : alGet t (tns.map (fun t => (t, emptyPartInfo))) = some emptyPartInfo :=
    alGet_initConst _ _ tns ht2
  have hpass1 := alGet_fold_parentRows t (partParentsQuery s schema) _ _ hinit
  have hid1 : (partParentsQuery s schema).foldl (parentRowStepOn t) emptyPartInfo =
      emptyPartInfo :=
    foldl_id_of _ _ (fun a ha v => by
      unfold parentRowStepOn
      rw [if_neg (h1 a ha)]) _
  rw [hid1] at hpass1
  have hpass2 := alGet_fold_inheritRows t (inheritsQuery s schema) _ _ hpass1
  have hid2 : (inheritsQuery s schema).foldl (inhStepOn t) emptyPartInfo = emptyPartInfo :=
    foldl_id_of _ _ (fun a ha v => by
      simp only [inhStepOn]
      rw [if_neg (h2 a ha).2, if_neg (h2 a ha).1]) _
  rw [hid2] at hpass2
  exact hpass2

/-- C9 witness: on `stC9`, table `t` is untouched by all three passes and
maps to the empty PartitionInfo object. -/
theorem untouched_table_empty_witness :
    api_table_schemas stC9 "public" = .ok snapC9 ∧
    "t" ∈ snapC9.tables ∧
    (∀ pr ∈ partParentsQuery stC9 "public", pr.1 ≠ "t") ∧
    (∀ r ∈ inheritsQuery stC9 "public", r.parentName ≠ "t" ∧ r.childName ≠ "t") ∧
    alGet "t" snapC9.partitions = some emptyPartInfo :=
  ⟨rfl, by decide, by decide, by decide,
   untouched_table_empty stC9 "public" snapC9 "t" rfl (by decide) (by decide) (by decide)⟩
